import Mathlib

/-!
# Verification of Kibana fragments

Shallow embedding of the fragments of the `ak20102763/kibana` repository:

* `src/plugins/vis_type_timeseries/server/lib/vis_data/request_processors/table/sibling_buckets.js`
  (the `siblingBuckets` request-processor pipeline stage),
* the `DocumentDetailLogic` state logic of the App Search document-detail page
  (only its unit test is in the repository snapshot, so the logic itself is
  modelled from the spec and the behaviour its test pins down),
* `src/plugins/guided_onboarding/server/types.ts` (the plugin setup/start
  contracts).

JavaScript objects that the pipeline stage mutates are modelled as finite
string-keyed trees (`Doc`), lodash-style `_.set` path writes as `Doc.set`,
and exceptions thrown by bucket transform functions as `Except` values.
-/

namespace Kibana

/-- A JSON-like document: either a primitive leaf value of type `α` or an
object node with an association list of string keys to sub-documents.
Keys in an object are unique in JavaScript; lookup takes the first match. -/
inductive Doc (α : Type) : Type where
  | leaf : α → Doc α
  | node : List (String × Doc α) → Doc α

/-- The children of a document: a leaf has none. -/
def Doc.children : Doc α → List (String × Doc α)
  | .leaf _ => []
  | .node cs => cs

/-- Lookup a key in an association list of children (first match). -/
def lookupKey (k : String) : List (String × Doc α) → Option (Doc α)
  | [] => none
  | (a, d) :: rest => if k = a then some d else lookupKey k rest

/-- Replace the binding of key `k` (first occurrence) by `v`, appending a new
binding when `k` is absent — the JavaScript property-assignment discipline. -/
def setKey (k : String) (v : Doc α) : List (String × Doc α) → List (String × Doc α)
  | [] => [(k, v)]
  | (a, d) :: rest => if k = a then (k, v) :: rest else (a, d) :: setKey k v rest

/-- Read a document at a dotted path (the path as a list of keys). -/
def Doc.get : Doc α → List String → Option (Doc α)
  | d, [] => some d
  | d, k :: p =>
    match lookupKey k d.children with
    | some c => Doc.get c p
    | none => none

/-- Modelled from the spec: the `overwrite` helper imported by
`sibling_buckets.js` (not part of the snapshot) "overwrites the document at
the nested path", i.e. a lodash `_.set`: missing or primitive intermediate
values are replaced by fresh objects, and the value at the full path is
replaced by `v`. -/
def Doc.set : Doc α → List String → Doc α → Doc α
  | _, [], v => v
  | d, k :: p, v =>
    .node (setKey k (Doc.set ((lookupKey k d.children).getD (.node [])) p v) d.children)

/-- `pathsDiverge p q` holds when neither path is a prefix of the other, so a
write at `q` cannot be observed at `p`. -/
def pathsDiverge : List String → List String → Bool
  | [], _ => false
  | _ :: _, [] => false
  | a :: p, b :: q => a ≠ b || pathsDiverge p q

@[simp] theorem Doc.children_node (cs : List (String × Doc α)) :
    Doc.children (.node cs) = cs := rfl

@[simp] theorem Doc.get_cons (d : Doc α) (k : String) (p : List String) :
    Doc.get d (k :: p) =
      match lookupKey k d.children with
      | some c => Doc.get c p
      | none => none := rfl

@[simp] theorem Doc.set_cons (d : Doc α) (k : String) (p : List String) (v : Doc α) :
    Doc.set d (k :: p) v =
      .node (setKey k (Doc.set ((lookupKey k d.children).getD (.node [])) p v)
        d.children) := rfl

@[simp] theorem lookupKey_setKey_self (k : String) (v : Doc α)
    (cs : List (String × Doc α)) : lookupKey k (setKey k v cs) = some v := by
  induction cs with
  | nil => simp [setKey, lookupKey]
  | cons hd tl ih =>
    obtain ⟨a, d⟩ := hd
    by_cases h : k = a <;> simp [setKey, lookupKey, h, ih]

theorem lookupKey_setKey_ne (a k : String) (hne : a ≠ k) (v : Doc α)
    (cs : List (String × Doc α)) : lookupKey a (setKey k v cs) = lookupKey a cs := by
  induction cs with
  | nil => simp [setKey, lookupKey, hne]
  | cons hd tl ih =>
    obtain ⟨b, d⟩ := hd
    by_cases hk : k = b
    · subst hk
      simp [setKey, lookupKey, hne]
    · by_cases ha : a = b <;> simp [setKey, lookupKey, hk, ha, ih]

/-- Frame property of path writes: a write at `q` is invisible at any path `p`
that diverges from `q` (neither is a prefix of the other). -/
theorem Doc.get_set_diverge (v : Doc α) :
    ∀ (q p : List String) (d : Doc α), pathsDiverge p q = true →
      (d.set q v).get p = d.get p := by
  intro q
  induction q with
  | nil =>
    intro p d h
    cases p <;> simp [pathsDiverge] at h
  | cons b q ih =>
    intro p d h
    cases p with
    | nil => simp [pathsDiverge] at h
    | cons a p =>
      simp only [pathsDiverge, Bool.or_eq_true, decide_eq_true_eq] at h
      by_cases hab : a = b
      · subst hab
        have hq : pathsDiverge p q = true := h.resolve_left fun hc => hc rfl
        simp only [Doc.set_cons, Doc.get_cons, Doc.children_node,
          lookupKey_setKey_self]
        rw [ih p _ hq]
        cases hcs : lookupKey a d.children with
        | none =>
          simp only [Option.getD]
          cases p with
          | nil => simp [pathsDiverge] at hq
          | cons x xs => simp [lookupKey]
        | some c => simp only [Option.getD]
      · simp only [Doc.set_cons, Doc.get_cons, Doc.children_node,
          lookupKey_setKey_ne a b hab]

/-! ## The `siblingBuckets` request processor

Embedding of
`src/plugins/vis_type_timeseries/server/lib/vis_data/request_processors/table/sibling_buckets.js`.
The helper modules it imports (`overwrite`, `get_bucket_size`,
`bucket_transform`, `get_interval_and_timefield`, `calculate_agg_root`) are
not part of the snapshot; except for `overwrite` (modelled as `Doc.set`
above) they are kept abstract, bundled in `VisDataHelpers`. A JavaScript
exception thrown by a bucket transform is an `Except.error`. The `async`
handler body only awaits `uiSettings.get`, modelled as a pure lookup. -/

/-- A metric of a series column, with the fields `sibling_buckets.js` reads:
its `id` and its `type` (e.g. `"avg_bucket"`). -/
structure Metric where
  id : String
  type : String

/-- A column of `panel.series`: its `id` and its list of metrics. -/
structure Column where
  id : String
  metrics : List Metric

/-- A TSVB table panel, with the fields the stage reads: `series`, plus the
`interval` that `getIntervalAndTimefield` derives the bucket interval from. -/
structure Panel where
  interval : String
  series : List Column

/-- Modelled from the spec: the `UI_SETTINGS.HISTOGRAM_BAR_TARGET` settings
key imported from `data/common` (not part of the snapshot); the spec calls it
"the histogram bar-target ui setting". -/
def UI_SETTINGS_HISTOGRAM_BAR_TARGET : String := "histogram:barTarget"

/-- Modelled from the spec: the helper modules `sibling_buckets.js` imports
but whose sources are not part of the snapshot, kept abstract.
`getIntervalAndTimefield` yields the panel interval, `getBucketSize` derives
the bucket size from the request, interval, capabilities and bar target,
`bucketTransform` is the table of transforms indexed by metric type (absent
entries are `none`), and `calculateAggRoot` computes the aggregation root
path for a column of the current document. A transform may throw
(`Except.error`). -/
structure VisDataHelpers (Req IdxP Caps Intv BSize ε α : Type) where
  getIntervalAndTimefield : Panel → IdxP → Intv
  getBucketSize : Req → Intv → Caps → Nat → BSize
  bucketTransform : String → Option (Metric → List Metric → BSize → Except ε (Doc α))
  calculateAggRoot : Doc α → Column → List String

variable {Req EsQ IdxP Caps Intv BSize ε α ν : Type}

/-- The `/_bucket$/.test(row.type)` check of `sibling_buckets.js`: the metric
type ends in `"_bucket"`. -/
def typeEndsInBucket (s : String) : Bool :=
  "_bucket".data.isSuffixOf s.data

/-- One iteration of the inner `forEach` of `sibling_buckets.js`: look up the
transform for the metric type; when present, run it and overwrite the
document at `aggRoot ++ [metric.id]`, the `try`/`catch` leaving the document
unchanged when the transform throws. -/
def processMetric (H : VisDataHelpers Req IdxP Caps Intv BSize ε α)
    (bucketSize : BSize) (allMetrics : List Metric) (aggRoot : List String)
    (doc : Doc α) (metric : Metric) : Doc α :=
  match H.bucketTransform metric.type with
  | none => doc
  | some fn =>
    match fn metric allMetrics bucketSize with
    | .ok bucket => doc.set (aggRoot ++ [metric.id]) bucket
    | .error _ => doc

/-- One iteration of the outer `forEach` of `sibling_buckets.js`: compute the
aggregation root for the column from the current document, then process the
metrics whose type matches `/_bucket$/`. -/
def processColumn (H : VisDataHelpers Req IdxP Caps Intv BSize ε α)
    (bucketSize : BSize) (doc : Doc α) (column : Column) : Doc α :=
  let aggRoot := H.calculateAggRoot doc column
  (column.metrics.filter fun row => typeEndsInBucket row.type).foldl
    (processMetric H bucketSize column.metrics aggRoot) doc

/-- The `siblingBuckets` request processor of `sibling_buckets.js`: given the
request, panel, es-query config, index pattern, capabilities and ui-settings
service, it returns a middleware stage `next => async doc => ...` that reads
the histogram bar target, derives the bucket size, rewrites the document for
every series column, and returns `next doc`. -/
def siblingBuckets (H : VisDataHelpers Req IdxP Caps Intv BSize ε α)
    (uiSettings : String → Nat) (req : Req) (panel : Panel)
    (esQueryConfig : EsQ) (indexPatternObject : IdxP) (capabilities : Caps) :
    (Doc α → ν) → Doc α → ν :=
  fun next doc =>
    let barTargetUiSettings := uiSettings UI_SETTINGS_HISTOGRAM_BAR_TARGET
    let interval := H.getIntervalAndTimefield panel indexPatternObject
    let bucketSize := H.getBucketSize req interval capabilities barTargetUiSettings
    next (panel.series.foldl (processColumn H bucketSize) doc)

/-- The bucket size the stage derives, shared by the statements below. -/
def stageBucketSize (H : VisDataHelpers Req IdxP Caps Intv BSize ε α)
    (uiSettings : String → Nat) (req : Req) (panel : Panel)
    (indexPatternObject : IdxP) (capabilities : Caps) : BSize :=
  H.getBucketSize req (H.getIntervalAndTimefield panel indexPatternObject)
    capabilities (uiSettings UI_SETTINGS_HISTOGRAM_BAR_TARGET)

/-! ### C1: the stage as the specification describes it

A second definition written from the words of the claim — walk the columns
of `panel.series`; for each metric of the column whose type ends in
`"_bucket"` and that has an entry in `bucketTransform`, overwrite the
document at `aggRoot ++ [metric.id]` with the transform of the metric, the
column metrics and the bucket size; finally return `next doc` — and a proof
that the embedded stage coincides with it. -/

/-- Claim-side metric walk: overwrite at `aggRoot ++ [m.id]` for every metric
whose type ends in `"_bucket"` and that has a transform entry. -/
def rewriteMetricsClaimed (H : VisDataHelpers Req IdxP Caps Intv BSize ε α)
    (bucketSize : BSize) (colMetrics : List Metric) (aggRoot : List String) :
    Doc α → List Metric → Doc α
  | doc, [] => doc
  | doc, m :: rest =>
    if typeEndsInBucket m.type then
      match H.bucketTransform m.type with
      | some fn =>
        match fn m colMetrics bucketSize with
        | .ok bucket =>
          rewriteMetricsClaimed H bucketSize colMetrics aggRoot
            (doc.set (aggRoot ++ [m.id]) bucket) rest
        | .error _ => rewriteMetricsClaimed H bucketSize colMetrics aggRoot doc rest
      | none => rewriteMetricsClaimed H bucketSize colMetrics aggRoot doc rest
    else rewriteMetricsClaimed H bucketSize colMetrics aggRoot doc rest

/-- Claim-side series walk: for each column, rewrite its `/_bucket$/` metrics
under the column's aggregation root. -/
def rewriteSeriesClaimed (H : VisDataHelpers Req IdxP Caps Intv BSize ε α)
    (bucketSize : BSize) : Doc α → List Column → Doc α
  | doc, [] => doc
  | doc, c :: rest =>
    rewriteSeriesClaimed H bucketSize
      (rewriteMetricsClaimed H bucketSize c.metrics (H.calculateAggRoot doc c)
        doc c.metrics) rest

/-- The middleware stage as the claim words it: derive the bucket size from
the request, the panel interval, the capabilities and the histogram
bar-target setting, rewrite the document, and pass it to `next`. -/
def siblingBucketsClaimed (H : VisDataHelpers Req IdxP Caps Intv BSize ε α)
    (uiSettings : String → Nat) (req : Req) (panel : Panel)
    (esQueryConfig : EsQ) (indexPatternObject : IdxP) (capabilities : Caps) :
    (Doc α → ν) → Doc α → ν :=
  fun next doc =>
    next (rewriteSeriesClaimed H
      (stageBucketSize H uiSettings req panel indexPatternObject capabilities)
      doc panel.series)

theorem filter_foldl_eq_rewriteMetricsClaimed
    (H : VisDataHelpers Req IdxP Caps Intv BSize ε α) (bucketSize : BSize)
    (colMetrics : List Metric) (aggRoot : List String) :
    ∀ (ms : List Metric) (doc : Doc α),
      (ms.filter fun row => typeEndsInBucket row.type).foldl
        (processMetric H bucketSize colMetrics aggRoot) doc =
      rewriteMetricsClaimed H bucketSize colMetrics aggRoot doc ms := by
  intro ms
  induction ms with
  | nil => intro doc; rfl
  | cons m rest ih =>
    intro doc
    by_cases hb : typeEndsInBucket m.type
    · rw [List.filter_cons_of_pos (by simpa using hb)]
      rw [List.foldl_cons]
      rw [rewriteMetricsClaimed]
      simp only [hb, if_true]
      cases hfn : H.bucketTransform m.type with
      | none =>
        simp only [processMetric, hfn]
        exact ih doc
      | some fn =>
        cases hres : fn m colMetrics bucketSize with
        | ok bucket =>
          simp only [processMetric, hfn, hres]
          exact ih _
        | error e =>
          simp only [processMetric, hfn, hres]
          exact ih doc
    · rw [List.filter_cons_of_neg (by simpa using hb)]
      rw [rewriteMetricsClaimed]
      simp only [hb, if_false]
      exact ih doc

theorem foldl_eq_rewriteSeriesClaimed
    (H : VisDataHelpers Req IdxP Caps Intv BSize ε α) (bucketSize : BSize) :
    ∀ (cols : List Column) (doc : Doc α),
      cols.foldl (processColumn H bucketSize) doc =
      rewriteSeriesClaimed H bucketSize doc cols := by
  intro cols
  induction cols with
  | nil => intro doc; rfl
  | cons c rest ih =>
    intro doc
    rw [List.foldl_cons, rewriteSeriesClaimed, processColumn]
    rw [filter_foldl_eq_rewriteMetricsClaimed]
    exact ih _

/-- **C1.** For every request, panel, es-query config, index pattern,
capabilities and ui-settings service, `siblingBuckets` returns a middleware
stage: given a continuation `next`, the handler overwrites the document, for
each column of `panel.series` and each metric of that column whose type ends
in `"_bucket"` and has an entry in `bucketTransform`, at the nested path
`aggRoot ++ [metric.id]` with
`bucketTransform metric.type (metric, column.metrics, bucketSize)`, where
`bucketSize` is derived from the request, the panel interval, the
capabilities and the histogram bar-target ui setting, and finally returns
`next doc`. -/
theorem c1_siblingBuckets_rewrites_then_chains
    (H : VisDataHelpers Req IdxP Caps Intv BSize ε α)
    (uiSettings : String → Nat) (req : Req) (panel : Panel)
    (esQueryConfig : EsQ) (indexPatternObject : IdxP) (capabilities : Caps)
    (next : Doc α → ν) (doc : Doc α) :
    siblingBuckets H uiSettings req panel esQueryConfig indexPatternObject
      capabilities next doc =
    siblingBucketsClaimed H uiSettings req panel esQueryConfig
      indexPatternObject capabilities next doc := by
  simp only [siblingBuckets, siblingBucketsClaimed, stageBucketSize]
  rw [foldl_eq_rewriteSeriesClaimed]

/-! ### C2: a throwing bucket transform is caught and ignored -/

/-- **C2.** In the `siblingBuckets` stage, an exception thrown by a bucket
transform for one metric is caught and ignored: the document is not
overwritten at that metric's path (`processMetric` returns it unchanged),
processing of the remaining metrics continues exactly as if the metric were
absent, and the handler still calls and returns `next doc` — the stage never
rejects because a transform threw. -/
theorem c2_bucket_transform_throw_ignored
    (H : VisDataHelpers Req IdxP Caps Intv BSize ε α)
    (uiSettings : String → Nat) (req : Req) (panel : Panel)
    (esQueryConfig : EsQ) (indexPatternObject : IdxP) (capabilities : Caps)
    (next : Doc α → ν) (doc : Doc α) (bucketSize : BSize)
    (allMetrics ms : List Metric) (aggRoot : List String) (m : Metric)
    (fn : Metric → List Metric → BSize → Except ε (Doc α)) (e : ε)
    (hfn : H.bucketTransform m.type = some fn)
    (herr : fn m allMetrics bucketSize = .error e) :
    processMetric H bucketSize allMetrics aggRoot doc m = doc ∧
    List.foldl (processMetric H bucketSize allMetrics aggRoot) doc (m :: ms) =
      List.foldl (processMetric H bucketSize allMetrics aggRoot) doc ms ∧
    ∃ d, siblingBuckets H uiSettings req panel esQueryConfig
      indexPatternObject capabilities next doc = next d := by
  have h1 : processMetric H bucketSize allMetrics aggRoot doc m = doc := by
    simp only [processMetric, hfn, herr]
  exact ⟨h1, by rw [List.foldl_cons, h1], ⟨_, rfl⟩⟩

/-- A bucket transform that always throws, for the concrete checks below. -/
def failTransform : Metric → List Metric → Nat → Except String (Doc Nat) :=
  fun _ _ _ => .error "boom"

/-- A concrete helper instantiation whose transform table maps
`"avg_bucket"` to the throwing transform. -/
def helpersFail : VisDataHelpers Unit Unit Unit Unit Nat String Nat where
  getIntervalAndTimefield := fun _ _ => ()
  getBucketSize := fun _ _ _ _ => 0
  bucketTransform := fun t => if t = "avg_bucket" then some failTransform else none
  calculateAggRoot := fun _ c => ["aggs", "pivot", "aggs", c.id, "aggs"]

/-- A sample metric whose type matches `/_bucket$/`. -/
def metricAvg : Metric := { id := "m1", type := "avg_bucket" }

/-- Witness for C2 at a concrete input: the transform table resolves
`"avg_bucket"` to the throwing transform, the transform throws, and the
document is left unchanged. -/
theorem c2_bucket_transform_throw_ignored_witness :
    helpersFail.bucketTransform metricAvg.type = some failTransform ∧
    failTransform metricAvg [metricAvg] 0 = .error "boom" ∧
    processMetric helpersFail 0 [metricAvg] ["aggs"] (Doc.node [])
      metricAvg = Doc.node [] :=
  ⟨by simp [helpersFail, metricAvg], rfl,
    (c2_bucket_transform_throw_ignored helpersFail (fun _ => 0) ()
      { interval := "auto", series := [] } () () () (fun d => d) (Doc.node [])
      0 [metricAvg] [] ["aggs"] metricAvg failTransform "boom"
      (by simp [helpersFail, metricAvg]) rfl).1⟩

/-! ### C8: the handler writes only at `aggRoot ++ [metric.id]` paths

An instrumented copy of the stage that also records the list of paths it
overwrites, a proof that it computes the same document, that every recorded
path has the claimed shape, and that every path diverging from all recorded
paths reads the same in the output document as in the input document. -/

/-- `processMetric` instrumented with the list of overwritten paths. -/
def processMetricTraced (H : VisDataHelpers Req IdxP Caps Intv BSize ε α)
    (bucketSize : BSize) (allMetrics : List Metric) (aggRoot : List String)
    (st : Doc α × List (List String)) (metric : Metric) :
    Doc α × List (List String) :=
  match H.bucketTransform metric.type with
  | none => st
  | some fn =>
    match fn metric allMetrics bucketSize with
    | .ok bucket =>
      (st.1.set (aggRoot ++ [metric.id]) bucket, st.2 ++ [aggRoot ++ [metric.id]])
    | .error _ => st

/-- `processColumn` instrumented with the list of overwritten paths. -/
def processColumnTraced (H : VisDataHelpers Req IdxP Caps Intv BSize ε α)
    (bucketSize : BSize) (st : Doc α × List (List String)) (column : Column) :
    Doc α × List (List String) :=
  let aggRoot := H.calculateAggRoot st.1 column
  (column.metrics.filter fun row => typeEndsInBucket row.type).foldl
    (processMetricTraced H bucketSize column.metrics aggRoot) st

/-- The final document of the stage together with the overwritten paths. -/
def siblingWrites (H : VisDataHelpers Req IdxP Caps Intv BSize ε α)
    (bucketSize : BSize) (doc : Doc α) (cols : List Column) :
    Doc α × List (List String) :=
  cols.foldl (processColumnTraced H bucketSize) (doc, [])

theorem processMetricTraced_fst (H : VisDataHelpers Req IdxP Caps Intv BSize ε α)
    (bucketSize : BSize) (allMetrics : List Metric) (aggRoot : List String)
    (st : Doc α × List (List String)) (m : Metric) :
    (processMetricTraced H bucketSize allMetrics aggRoot st m).1 =
      processMetric H bucketSize allMetrics aggRoot st.1 m := by
  cases hfn : H.bucketTransform m.type with
  | none => simp [processMetricTraced, processMetric, hfn]
  | some fn =>
    cases hres : fn m allMetrics bucketSize with
    | ok bucket => simp [processMetricTraced, processMetric, hfn, hres]
    | error e => simp [processMetricTraced, processMetric, hfn, hres]

theorem foldl_processMetricTraced_fst
    (H : VisDataHelpers Req IdxP Caps Intv BSize ε α) (bucketSize : BSize)
    (allMetrics : List Metric) (aggRoot : List String) :
    ∀ (ms : List Metric) (st : Doc α × List (List String)),
      (ms.foldl (processMetricTraced H bucketSize allMetrics aggRoot) st).1 =
        ms.foldl (processMetric H bucketSize allMetrics aggRoot) st.1 := by
  intro ms
  induction ms with
  | nil => intro st; rfl
  | cons m rest ih =>
    intro st
    rw [List.foldl_cons, List.foldl_cons, ih, processMetricTraced_fst]

theorem processColumnTraced_fst
    (H : VisDataHelpers Req IdxP Caps Intv BSize ε α) (bucketSize : BSize)
    (st : Doc α × List (List String)) (c : Column) :
    (processColumnTraced H bucketSize st c).1 = processColumn H bucketSize st.1 c := by
  simp only [processColumnTraced, processColumn]
  rw [foldl_processMetricTraced_fst]

theorem foldl_processColumnTraced_fst
    (H : VisDataHelpers Req IdxP Caps Intv BSize ε α) (bucketSize : BSize) :
    ∀ (cols : List Column) (st : Doc α × List (List String)),
      (cols.foldl (processColumnTraced H bucketSize) st).1 =
        cols.foldl (processColumn H bucketSize) st.1 := by
  intro cols
  induction cols with
  | nil => intro st; rfl
  | cons c rest ih =>
    intro st
    rw [List.foldl_cons, List.foldl_cons, ih, processColumnTraced_fst]

theorem siblingWrites_fst (H : VisDataHelpers Req IdxP Caps Intv BSize ε α)
    (bucketSize : BSize) (doc : Doc α) (cols : List Column) :
    (siblingWrites H bucketSize doc cols).1 =
      cols.foldl (processColumn H bucketSize) doc :=
  foldl_processColumnTraced_fst H bucketSize cols (doc, [])

theorem mem_processMetricTraced_writes
    (H : VisDataHelpers Req IdxP Caps Intv BSize ε α) (bucketSize : BSize)
    (allMetrics : List Metric) (aggRoot : List String)
    (st : Doc α × List (List String)) (m : Metric) :
    ∀ x ∈ st.2, x ∈ (processMetricTraced H bucketSize allMetrics aggRoot st m).2 := by
  intro x hx
  cases hfn : H.bucketTransform m.type with
  | none => simpa [processMetricTraced, hfn] using hx
  | some fn =>
    cases hres : fn m allMetrics bucketSize with
    | ok bucket =>
      simp only [processMetricTraced, hfn, hres]
      exact List.mem_append_left _ hx
    | error e => simpa [processMetricTraced, hfn, hres] using hx

theorem mem_foldl_processMetricTraced_writes
    (H : VisDataHelpers Req IdxP Caps Intv BSize ε α) (bucketSize : BSize)
    (allMetrics : List Metric) (aggRoot : List String) :
    ∀ (ms : List Metric) (st : Doc α × List (List String)),
      ∀ x ∈ st.2,
        x ∈ (ms.foldl (processMetricTraced H bucketSize allMetrics aggRoot) st).2 := by
  intro ms
  induction ms with
  | nil => intro st x hx; exact hx
  | cons m rest ih =>
    intro st x hx
    rw [List.foldl_cons]
    exact ih _ x (mem_processMetricTraced_writes H bucketSize allMetrics aggRoot st m x hx)

theorem mem_processColumnTraced_writes
    (H : VisDataHelpers Req IdxP Caps Intv BSize ε α) (bucketSize : BSize)
    (st : Doc α × List (List String)) (c : Column) :
    ∀ x ∈ st.2, x ∈ (processColumnTraced H bucketSize st c).2 := by
  intro x hx
  simp only [processColumnTraced]
  exact mem_foldl_processMetricTraced_writes H bucketSize c.metrics _ _ st x hx

theorem mem_foldl_processColumnTraced_writes
    (H : VisDataHelpers Req IdxP Caps Intv BSize ε α) (bucketSize : BSize) :
    ∀ (cols : List Column) (st : Doc α × List (List String)),
      ∀ x ∈ st.2, x ∈ (cols.foldl (processColumnTraced H bucketSize) st).2 := by
  intro cols
  induction cols with
  | nil => intro st x hx; exact hx
  | cons c rest ih =>
    intro st x hx
    rw [List.foldl_cons]
    exact ih _ x (mem_processColumnTraced_writes H bucketSize st c x hx)

theorem mem_writes_foldl_metric
    (H : VisDataHelpers Req IdxP Caps Intv BSize ε α) (bucketSize : BSize)
    (allMetrics : List Metric) (aggRoot : List String) :
    ∀ (ms : List Metric) (st : Doc α × List (List String)),
      ∀ q ∈ (ms.foldl (processMetricTraced H bucketSize allMetrics aggRoot) st).2,
        q ∈ st.2 ∨ ∃ m, m ∈ ms ∧ (H.bucketTransform m.type).isSome = true ∧
          q = aggRoot ++ [m.id] := by
  intro ms
  induction ms with
  | nil => intro st q hq; exact Or.inl hq
  | cons m rest ih =>
    intro st q hq
    rw [List.foldl_cons] at hq
    rcases ih _ q hq with hmem | ⟨m', hm', hsome, hshape⟩
    · cases hfn : H.bucketTransform m.type with
      | none =>
        simp only [processMetricTraced, hfn] at hmem
        exact Or.inl hmem
      | some fn =>
        cases hres : fn m allMetrics bucketSize with
        | ok bucket =>
          simp only [processMetricTraced, hfn, hres] at hmem
          rcases List.mem_append.mp hmem with h | h
          · exact Or.inl h
          · refine Or.inr ⟨m, List.mem_cons_self m rest, ?_, ?_⟩
            · rw [hfn]; rfl
            · simpa using h
        | error e =>
          simp only [processMetricTraced, hfn, hres] at hmem
          exact Or.inl hmem
    · exact Or.inr ⟨m', List.mem_cons_of_mem m hm', hsome, hshape⟩

theorem mem_writes_processColumnTraced
    (H : VisDataHelpers Req IdxP Caps Intv BSize ε α) (bucketSize : BSize)
    (st : Doc α × List (List String)) (c : Column) :
    ∀ q ∈ (processColumnTraced H bucketSize st c).2,
      q ∈ st.2 ∨ ∃ m, m ∈ c.metrics ∧ typeEndsInBucket m.type = true ∧
        (H.bucketTransform m.type).isSome = true ∧
        ∃ d, q = H.calculateAggRoot d c ++ [m.id] := by
  intro q hq
  simp only [processColumnTraced] at hq
  rcases mem_writes_foldl_metric H bucketSize c.metrics _ _ st q hq with
    h | ⟨m, hm, hsome, hshape⟩
  · exact Or.inl h
  · rcases List.mem_filter.mp hm with ⟨hmem, hb⟩
    exact Or.inr ⟨m, hmem, hb, hsome, st.1, hshape⟩

theorem mem_writes_foldl_column
    (H : VisDataHelpers Req IdxP Caps Intv BSize ε α) (bucketSize : BSize) :
    ∀ (cols : List Column) (st : Doc α × List (List String)),
      ∀ q ∈ (cols.foldl (processColumnTraced H bucketSize) st).2,
        q ∈ st.2 ∨ ∃ c, c ∈ cols ∧ ∃ m, m ∈ c.metrics ∧
          typeEndsInBucket m.type = true ∧
          (H.bucketTransform m.type).isSome = true ∧
          ∃ d, q = H.calculateAggRoot d c ++ [m.id] := by
  intro cols
  induction cols with
  | nil => intro st q hq; exact Or.inl hq
  | cons c rest ih =>
    intro st q hq
    rw [List.foldl_cons] at hq
    rcases ih _ q hq with hmem | ⟨c', hc', hrest⟩
    · rcases mem_writes_processColumnTraced H bucketSize st c q hmem with h | h
      · exact Or.inl h
      · exact Or.inr ⟨c, List.mem_cons_self c rest, h⟩
    · exact Or.inr ⟨c', List.mem_cons_of_mem c hc', hrest⟩

theorem get_processMetricTraced
    (H : VisDataHelpers Req IdxP Caps Intv BSize ε α) (bucketSize : BSize)
    (allMetrics : List Metric) (aggRoot : List String)
    (st : Doc α × List (List String)) (m : Metric) (p : List String)
    (hdiv : ∀ q ∈ (processMetricTraced H bucketSize allMetrics aggRoot st m).2,
      pathsDiverge p q = true) :
    (processMetricTraced H bucketSize allMetrics aggRoot st m).1.get p =
      st.1.get p := by
  cases hfn : H.bucketTransform m.type with
  | none => simp [processMetricTraced, hfn]
  | some fn =>
    cases hres : fn m allMetrics bucketSize with
    | ok bucket =>
      simp only [processMetricTraced, hfn, hres]
      refine Doc.get_set_diverge bucket _ p st.1 ?_
      refine hdiv _ ?_
      simp [processMetricTraced, hfn, hres]
    | error e => simp [processMetricTraced, hfn, hres]

theorem get_foldl_processMetricTraced
    (H : VisDataHelpers Req IdxP Caps Intv BSize ε α) (bucketSize : BSize)
    (allMetrics : List Metric) (aggRoot : List String) :
    ∀ (ms : List Metric) (st : Doc α × List (List String)) (p : List String),
      (∀ q ∈ (ms.foldl (processMetricTraced H bucketSize allMetrics aggRoot) st).2,
        pathsDiverge p q = true) →
      (ms.foldl (processMetricTraced H bucketSize allMetrics aggRoot) st).1.get p =
        st.1.get p := by
  intro ms
  induction ms with
  | nil => intro st p _; rfl
  | cons m rest ih =>
    intro st p hdiv
    rw [List.foldl_cons] at hdiv ⊢
    rw [ih _ p hdiv]
    refine get_processMetricTraced H bucketSize allMetrics aggRoot st m p ?_
    intro q hq
    exact hdiv q (mem_foldl_processMetricTraced_writes H bucketSize allMetrics
      aggRoot rest _ q hq)

theorem get_processColumnTraced
    (H : VisDataHelpers Req IdxP Caps Intv BSize ε α) (bucketSize : BSize)
    (st : Doc α × List (List String)) (c : Column) (p : List String)
    (hdiv : ∀ q ∈ (processColumnTraced H bucketSize st c).2,
      pathsDiverge p q = true) :
    (processColumnTraced H bucketSize st c).1.get p = st.1.get p := by
  simp only [processColumnTraced] at hdiv ⊢
  exact get_foldl_processMetricTraced H bucketSize c.metrics _ _ st p hdiv

theorem get_foldl_processColumnTraced
    (H : VisDataHelpers Req IdxP Caps Intv BSize ε α) (bucketSize : BSize) :
    ∀ (cols : List Column) (st : Doc α × List (List String)) (p : List String),
      (∀ q ∈ (cols.foldl (processColumnTraced H bucketSize) st).2,
        pathsDiverge p q = true) →
      (cols.foldl (processColumnTraced H bucketSize) st).1.get p = st.1.get p := by
  intro cols
  induction cols with
  | nil => intro st p _; rfl
  | cons c rest ih =>
    intro st p hdiv
    rw [List.foldl_cons] at hdiv ⊢
    rw [ih _ p hdiv]
    refine get_processColumnTraced H bucketSize st c p ?_
    intro q hq
    exact hdiv q (mem_foldl_processColumnTraced_writes H bucketSize rest _ q hq)

/-- **C8.** The document handler produced by `siblingBuckets` writes only at
paths of the form `aggRoot ++ [metric.id]` for metrics whose type matches
`/_bucket$/` and that have an entry in `bucketTransform`; every path that
diverges from all written paths reads the same in the document passed to
`next` as in the input document; and the handler passes exactly this
rewritten document to `next`. (The panel, request and the other inputs are
values of the pure embedding and are never mutated.) -/
theorem c8_siblingBuckets_writes_frame
    (H : VisDataHelpers Req IdxP Caps Intv BSize ε α)
    (uiSettings : String → Nat) (req : Req) (panel : Panel)
    (esQueryConfig : EsQ) (indexPatternObject : IdxP) (capabilities : Caps)
    (next : Doc α → ν) (doc : Doc α) (p : List String)
    (hp : ∀ q ∈ (siblingWrites H (stageBucketSize H uiSettings req panel
        indexPatternObject capabilities) doc panel.series).2,
      pathsDiverge p q = true) :
    (∀ q ∈ (siblingWrites H (stageBucketSize H uiSettings req panel
        indexPatternObject capabilities) doc panel.series).2,
      ∃ c, c ∈ panel.series ∧ ∃ m, m ∈ c.metrics ∧
        typeEndsInBucket m.type = true ∧
        (H.bucketTransform m.type).isSome = true ∧
        ∃ d, q = H.calculateAggRoot d c ++ [m.id]) ∧
    (siblingWrites H (stageBucketSize H uiSettings req panel
        indexPatternObject capabilities) doc panel.series).1.get p = doc.get p ∧
    siblingBuckets H uiSettings req panel esQueryConfig indexPatternObject
      capabilities next doc =
      next (siblingWrites H (stageBucketSize H uiSettings req panel
        indexPatternObject capabilities) doc panel.series).1 := by
  refine ⟨?_, ?_, ?_⟩
  · intro q hq
    rcases mem_writes_foldl_column H _ panel.series (doc, []) q hq with h | h
    · simp at h
    · exact h
  · exact get_foldl_processColumnTraced H _ panel.series (doc, []) p hp
  · rw [siblingWrites_fst]
    rfl

/-- A bucket transform that returns a constant leaf, for the concrete
checks below. -/
def okTransform : Metric → List Metric → Nat → Except String (Doc Nat) :=
  fun _ _ _ => .ok (Doc.leaf 7)

/-- Concrete helpers whose transform table maps `"avg_bucket"` to a
succeeding transform. -/
def helpersOk : VisDataHelpers Unit Unit Unit Unit Nat String Nat where
  getIntervalAndTimefield := fun _ _ => ()
  getBucketSize := fun _ _ _ _ => 0
  bucketTransform := fun t => if t = "avg_bucket" then some okTransform else none
  calculateAggRoot := fun _ c => ["aggs", c.id]

/-- A one-column panel whose only metric is `metricAvg`. -/
def panelOne : Panel :=
  { interval := "auto", series := [{ id := "c1", metrics := [metricAvg] }] }

/-- A starting document with a `size` key. -/
def docStart : Doc Nat := Doc.node [("size", Doc.leaf 0)]

/-- Witness for C8 at a concrete input: the path `["size"]` diverges from
the single written path `["aggs", "c1", "m1"]`, and the handler leaves it
unchanged. -/
theorem c8_siblingBuckets_writes_frame_witness :
    (siblingWrites helpersOk (stageBucketSize helpersOk (fun _ => 0) ()
        panelOne () ()) docStart panelOne.series).1.get ["size"] =
      docStart.get ["size"] :=
  (c8_siblingBuckets_writes_frame helpersOk (fun _ => 0) () panelOne () () ()
    (fun d => d) docStart ["size"] (by decide)).2.1

/-! ## `DocumentDetailLogic` (App Search document detail page)

The source of `DocumentDetailLogic` is not part of the snapshot; only its
unit test is. The logic is therefore modelled from the spec — a UI
action/reducer store whose actions map to API calls, flash messages and
navigation — with the behaviour its unit test pins down. Asynchronous
request outcomes are passed in as settled `Except` values, and the
observable interactions of one action are returned as a list of
`UIEffect`s in the order they are issued. -/

/-- The state of the document detail store: the `dataLoading` flag and the
fields of the loaded document (field payloads stay abstract in `F`). -/
structure DocumentDetailState (F : Type) where
  dataLoading : Bool
  fields : List F

/-- An observable external interaction of the logic: an HTTP request, a
flash message, or a navigation. `flashAPIErrors e isQueued` records whether
the `{ isQueued: true }` option was passed. -/
inductive UIEffect where
  | httpGet (url : String)
  | httpDelete (url : String)
  | setQueuedSuccessMessage (message : String)
  | flashAPIErrors (e : String) (isQueued : Bool)
  | navigateToUrl (url : String)
deriving DecidableEq

/-- `true` exactly on HTTP GET effects. -/
def UIEffect.isHttpGet : UIEffect → Bool
  | .httpGet _ => true
  | _ => false

/-- `true` exactly on HTTP DELETE effects. -/
def UIEffect.isHttpDelete : UIEffect → Bool
  | .httpDelete _ => true
  | _ => false

namespace DocumentDetailLogic

/-- Modelled from the spec: the state of `DocumentDetailLogic` on mount
(the `DEFAULT_VALUES` of its unit test): `dataLoading` is `true` and
`fields` is empty. -/
def DEFAULT_VALUES (F : Type) : DocumentDetailState F :=
  { dataLoading := true, fields := [] }

/-- Modelled from the spec: the `setFields` action stores the given fields
in state and sets `dataLoading` to `false`. -/
def setFields {F : Type} (fields : List F) (s : DocumentDetailState F) :
    DocumentDetailState F :=
  { s with dataLoading := false, fields := fields }

/-- The documents API URL for one document of an engine. -/
def documentUrl (engineName id : String) : String :=
  "/api/app_search/engines/" ++ engineName ++ "/documents/" ++ id

/-- The URL of the engine documents page. -/
def documentsPageUrl (engineName : String) : String :=
  "/engines/" ++ engineName ++ "/documents"

/-- Modelled from the spec: the `getDocumentDetails(id)` listener issues one
HTTP GET for the document; when the request resolves it stores the response
fields via `setFields`; when it rejects with `e` it calls `flashAPIErrors`
with `e` and `{ isQueued: true }` and navigates to the engine documents
page. `result` is the settled outcome of the GET. -/
def getDocumentDetails {F : Type} (engineName id : String)
    (result : Except String (List F)) (s : DocumentDetailState F) :
    DocumentDetailState F × List UIEffect :=
  match result with
  | .ok fields => (setFields fields s, [.httpGet (documentUrl engineName id)])
  | .error e =>
    (s, [.httpGet (documentUrl engineName id), .flashAPIErrors e true,
      .navigateToUrl (documentsPageUrl engineName)])

/-- Modelled from the spec: the success message queued after a delete. -/
def DELETE_SUCCESS_MESSAGE : String :=
  "Successfully marked document for deletion. It will be deleted momentarily."

/-- Modelled from the spec: the `deleteDocument(id)` listener asks for
confirmation and does nothing when it is declined; otherwise it issues one
HTTP DELETE for the document, and when the request resolves it queues the
success message and navigates to the engine documents page, while a
rejection with `e` calls `flashAPIErrors` with `e` (and no queue option).
`confirmed` is the dialog outcome, `result` the settled outcome of the
DELETE. -/
def deleteDocument {F : Type} (engineName id : String) (confirmed : Bool)
    (result : Except String Unit) (s : DocumentDetailState F) :
    DocumentDetailState F × List UIEffect :=
  if confirmed then
    match result with
    | .ok _ =>
      (s, [.httpDelete (documentUrl engineName id),
        .setQueuedSuccessMessage DELETE_SUCCESS_MESSAGE,
        .navigateToUrl (documentsPageUrl engineName)])
    | .error e =>
      (s, [.httpDelete (documentUrl engineName id), .flashAPIErrors e false])
  else (s, [])

end DocumentDetailLogic

/-- **C3.** spec-modelled: for every document id, `getDocumentDetails id`
issues exactly one HTTP GET, to
`/api/app_search/engines/{engineName}/documents/{id}` for the current engine
name, whatever the request outcome; and when the request resolves it stores
the response's fields in state via `setFields`, which also sets
`dataLoading` to `false`. -/
theorem c3_getDocumentDetails_one_get_then_store {F : Type}
    (engineName id : String) (result : Except String (List F))
    (fields : List F) (s : DocumentDetailState F) :
    ((DocumentDetailLogic.getDocumentDetails engineName id result s).2.countP
        (fun e => e.isHttpGet) = 1 ∧
      UIEffect.httpGet (DocumentDetailLogic.documentUrl engineName id) ∈
        (DocumentDetailLogic.getDocumentDetails engineName id result s).2) ∧
    DocumentDetailLogic.getDocumentDetails engineName id (.ok fields) s =
      (DocumentDetailLogic.setFields fields s,
        [.httpGet (DocumentDetailLogic.documentUrl engineName id)]) ∧
    (DocumentDetailLogic.setFields fields s).dataLoading = false ∧
    (DocumentDetailLogic.setFields fields s).fields = fields := by
  refine ⟨⟨?_, ?_⟩, rfl, rfl, rfl⟩
  · cases result <;>
      simp [DocumentDetailLogic.getDocumentDetails, UIEffect.isHttpGet,
        List.countP_cons, List.countP_nil]
  · cases result <;> simp [DocumentDetailLogic.getDocumentDetails]

/-- **C4.** spec-modelled: when an API call made by `DocumentDetailLogic`
fails, an error flash message is raised: a GET rejected with `e` leads to
`flashAPIErrors e` with the queued option and a navigation to
`/engines/{engineName}/documents`, and a DELETE rejected with `e` leads to
`flashAPIErrors e`. -/
theorem c4_api_failures_flash_errors {F : Type} (engineName id e : String)
    (s : DocumentDetailState F) :
    DocumentDetailLogic.getDocumentDetails (F := F) engineName id (.error e) s =
      (s, [.httpGet (DocumentDetailLogic.documentUrl engineName id),
        .flashAPIErrors e true,
        .navigateToUrl (DocumentDetailLogic.documentsPageUrl engineName)]) ∧
    DocumentDetailLogic.deleteDocument engineName id true (.error e) s =
      (s, [.httpDelete (DocumentDetailLogic.documentUrl engineName id),
        .flashAPIErrors e false]) :=
  ⟨rfl, rfl⟩

/-- **C5.** spec-modelled: for every document id, when the confirmation
dialog is accepted, `deleteDocument id` issues exactly one HTTP DELETE, to
`/api/app_search/engines/{engineName}/documents/{id}`, and when the request
resolves it queues the success message "Successfully marked document for
deletion. It will be deleted momentarily." and navigates to
`/engines/{engineName}/documents`. -/
theorem c5_deleteDocument_confirmed_deletes {F : Type}
    (engineName id : String) (result : Except String Unit)
    (s : DocumentDetailState F) :
    DocumentDetailLogic.deleteDocument engineName id true (.ok ()) s =
      (s, [.httpDelete (DocumentDetailLogic.documentUrl engineName id),
        .setQueuedSuccessMessage DocumentDetailLogic.DELETE_SUCCESS_MESSAGE,
        .navigateToUrl (DocumentDetailLogic.documentsPageUrl engineName)]) ∧
    (DocumentDetailLogic.deleteDocument engineName id true result s).2.countP
      (fun e => e.isHttpDelete) = 1 ∧
    DocumentDetailLogic.DELETE_SUCCESS_MESSAGE =
      "Successfully marked document for deletion. It will be deleted momentarily." := by
  refine ⟨rfl, ?_, rfl⟩
  cases result <;>
    simp [DocumentDetailLogic.deleteDocument, UIEffect.isHttpDelete,
      List.countP_cons, List.countP_nil]

/-- **C9.** spec-modelled: `deleteDocument` never issues the HTTP DELETE
without user confirmation: when the confirmation dialog returns `false`, no
API call is made, no message is queued and no navigation occurs — the effect
trace is empty and the state is unchanged. -/
theorem c9_deleteDocument_unconfirmed_noop {F : Type}
    (engineName id : String) (result : Except String Unit)
    (s : DocumentDetailState F) :
    DocumentDetailLogic.deleteDocument engineName id false result s = (s, []) :=
  rfl

/-- **C10.** spec-modelled: on mount the state of `DocumentDetailLogic` is
exactly `{ dataLoading := true, fields := [] }`, and for every fields list
`setFields` sets `fields` to its argument and `dataLoading` to `false`
while leaving every other part of the state record unchanged. -/
theorem c10_default_values_and_setFields_frame {F : Type}
    (fields : List F) (s : DocumentDetailState F) :
    DocumentDetailLogic.DEFAULT_VALUES F =
      { dataLoading := true, fields := ([] : List F) } ∧
    DocumentDetailLogic.setFields fields s =
      { s with dataLoading := false, fields := fields } :=
  ⟨rfl, rfl⟩

/-! ## Guided-onboarding plugin contracts

Embedding of `src/plugins/guided_onboarding/server/types.ts`. `GuideId` and
`GuideConfig` are imported from other packages there and stay abstract
type parameters here; `void` becomes `Unit`. -/

/-- The setup contract of the guided-onboarding plugin: the single operation
`registerGuideConfig`, taking a guide id and a guide config and returning
nothing. -/
structure GuidedOnboardingPluginSetup (GuideId GuideConfig : Type) where
  registerGuideConfig : GuideId → GuideConfig → Unit

/-- The start contract of the guided-onboarding plugin: an empty interface. -/
structure GuidedOnboardingPluginStart

/-- **C7.** The guided-onboarding plugin's setup contract consists of exactly
one operation, `registerGuideConfig`, which takes a guide id and a guide
config and returns nothing: a setup value is fully determined by, and can be
built from, that one function. The start contract is empty: it exposes no
operations, so every start value equals the empty record. -/
theorem c7_guided_onboarding_contracts (GuideId GuideConfig : Type) :
    Function.Bijective
      (fun s : GuidedOnboardingPluginSetup GuideId GuideConfig =>
        s.registerGuideConfig) ∧
    ∀ t : GuidedOnboardingPluginStart, t = GuidedOnboardingPluginStart.mk := by
  refine ⟨⟨?_, ?_⟩, ?_⟩
  · intro a b h
    cases a
    cases b
    cases h
    rfl
  · intro f
    exact ⟨⟨f⟩, rfl⟩
  · intro t
    cases t
    rfl

end Kibana
